import Mathlib

/-!
Verification of the quantum-circuit service in qiskit-backend/server.py.

The embedding covers the circuit builder (build_circuit), the simulation
pipeline (run_simulation), the /run endpoint (run_circuit), and the textual
circuit codec. Angle parameters are kept at an abstract type alpha, with an
explicit value hp standing for the default angle np.pi / 2: the source never
computes with angles, it only stores them, so the embedding is parametric in
their representation.

Behavior of the qiskit library at the call sites of server.py is embedded
where the claims depend on it, namely:
  - QuantumCircuit(n, n) raises for a negative register size and accepts
    size zero (build_circuit line 85);
  - gate methods resolve integer indices with python list semantics
    (negative indices count from the end), raise CircuitError for an index
    out of range and for duplicate qubit arguments, and these exceptions are
    caught by the per-gate try/except (lines 98 and 147);
  - QuantumCircuit.remove_final_measurements (line 159) removes exactly the
    measure instructions that have no later instruction on their qubit wire
    or classical wire, cascading through removed measures.
-/

namespace QiskitBackend

variable {α : Type}

deriving instance DecidableEq for Except

/-- Python str.lower on the ascii gate-name tokens: each character is
lowercased individually. -/
def pyLower (s : String) : String :=
  ⟨s.data.map Char.toLower⟩

/-- Values of the python GATE_MAP dict (server.py lines 50 to 72). The dict
maps frontend gate-name strings to qiskit method selector strings; selectors
are only ever compared against string literals in the elif chain of
build_circuit, so they are embedded as an enumeration. -/
inductive MappedGate where
  | h | x | y | z | s | t | sdg | tdg | rx | ry | rz
  | cx | cy | cz | swap | ccx | cswap | measure
deriving DecidableEq, Repr

/-- GATE_MAP.get (server.py lines 50 to 72, lookup at line 93): the
frontend-to-qiskit gate name table, including the cnot, toffoli and fredkin
aliases, returning none for unknown names. -/
def GATE_MAP (g : String) : Option MappedGate :=
  if g = "h" then some .h
  else if g = "x" then some .x
  else if g = "y" then some .y
  else if g = "z" then some .z
  else if g = "s" then some .s
  else if g = "t" then some .t
  else if g = "sdg" then some .sdg
  else if g = "tdg" then some .tdg
  else if g = "rx" then some .rx
  else if g = "ry" then some .ry
  else if g = "rz" then some .rz
  else if g = "cx" then some .cx
  else if g = "cnot" then some .cx
  else if g = "cy" then some .cy
  else if g = "cz" then some .cz
  else if g = "swap" then some .swap
  else if g = "ccx" then some .ccx
  else if g = "toffoli" then some .ccx
  else if g = "cswap" then some .cswap
  else if g = "fredkin" then some .cswap
  else if g = "measure" then some .measure
  else none

/-- One instruction stored in a QuantumCircuit, with already-resolved qubit
and clbit indices. Angles have the abstract type alpha. -/
inductive Op (α : Type) where
  | h (q : Int)
  | x (q : Int)
  | y (q : Int)
  | z (q : Int)
  | s (q : Int)
  | t (q : Int)
  | sdg (q : Int)
  | tdg (q : Int)
  | rx (θ : α) (q : Int)
  | ry (θ : α) (q : Int)
  | rz (θ : α) (q : Int)
  | cx (c t : Int)
  | cy (c t : Int)
  | cz (c t : Int)
  | swap (a b : Int)
  | ccx (c1 c2 t : Int)
  | cswap (c a b : Int)
  | measure (q c : Int)
deriving DecidableEq, Repr

/-- The qubit indices an instruction acts on. -/
def Op.qubits : Op α → List Int
  | .h q | .x q | .y q | .z q | .s q | .t q | .sdg q | .tdg q => [q]
  | .rx _ q | .ry _ q | .rz _ q => [q]
  | .cx a b | .cy a b | .cz a b | .swap a b => [a, b]
  | .ccx a b c | .cswap a b c => [a, b, c]
  | .measure q _ => [q]

/-- The classical-bit indices an instruction writes (only measure does). -/
def Op.clbits : Op α → List Int
  | .measure _ c => [c]
  | _ => []

/-- Whether an instruction is a measurement. -/
def Op.isMeasure : Op α → Bool
  | .measure _ _ => true
  | _ => false

/-- One raw gate descriptor from the request body (the dict read at
server.py lines 88 to 91). An absent key maps to none, and an absent params
key maps to the empty list, mirroring dict.get defaults. -/
structure GateInfo (α : Type) where
  gate : String
  qubit : Option Int
  targetQubit : Option Int
  control2Qubit : Option Int
  swap1Qubit : Option Int
  swap2Qubit : Option Int
  params : List α
deriving DecidableEq, Repr

/-- A diagnostic record emitted by build_circuit: the logger.warning call for
an unknown gate name (line 95) or the logger.error call from the per-gate
except clause (line 148). -/
inductive Diag where
  | unknownGate (g : String)
  | applyError (g : String)
deriving DecidableEq, Repr

/-- The effect of processing one gate descriptor in the loop of
build_circuit: an instruction appended, a warn-and-continue skip, a silent
skip (a branch whose guard fails with no else clause), or a caught
exception logged as an error. -/
inductive StepResult (α : Type) where
  | add (op : Op α)
  | skipUnknown (g : String)
  | skipSilent
  | skipError (g : String)
deriving DecidableEq, Repr

/-- Qiskit index resolution for a register of size n: python list indexing
semantics, so 0 <= q < n stays q, -n <= q < 0 becomes q + n, anything else
raises (returns none). -/
def resolveIdx (n q : Int) : Option Int :=
  if 0 ≤ q ∧ q < n then some q
  else if 0 ≤ q + n ∧ q < 0 then some (q + n)
  else none

/-- Application of a one-qubit gate method: resolve the index or raise. -/
def mk1 (g : String) (f : Int → Op α) (n q : Int) : StepResult α :=
  match resolveIdx n q with
  | some r => .add (f r)
  | none => .skipError g

/-- Application of a two-qubit gate method: resolve both indices, raise on
an unresolvable index or on duplicate qubit arguments. -/
def mk2 (g : String) (f : Int → Int → Op α) (n a b : Int) : StepResult α :=
  match resolveIdx n a, resolveIdx n b with
  | some ra, some rb => if ra = rb then .skipError g else .add (f ra rb)
  | _, _ => .skipError g

/-- Application of a three-qubit gate method: resolve all indices, raise on
an unresolvable index or on duplicate qubit arguments. -/
def mk3 (g : String) (f : Int → Int → Int → Op α) (n a b c : Int) : StepResult α :=
  match resolveIdx n a, resolveIdx n b, resolveIdx n c with
  | some ra, some rb, some rc =>
      if ra = rb ∨ ra = rc ∨ rb = rc then .skipError g else .add (f ra rb rc)
  | _, _, _ => .skipError g

/-- Application of qc.measure(qubit, qubit) (server.py line 145): the qubit
index is resolved in the quantum register and the same value in the
classical register, both of size n. -/
def mkMeasure (g : String) (n q : Int) : StepResult α :=
  match resolveIdx n q with
  | some r => .add (.measure r r)
  | none => .skipError g

/-- The lowered gate-name token: gate_info.get of gate with default empty
string, lowercased (server.py line 88). -/
def gName (gi : GateInfo α) : String :=
  pyLower gi.gate

/-- The primary qubit: gate_info.get of qubit with default 0 (line 89). -/
def gQubit (gi : GateInfo α) : Int :=
  gi.qubit.getD 0

/-- The rotation angle: params[0] if params else np.pi / 2 (lines 116, 119
and 122); hp stands for the constant np.pi / 2. -/
def angleOf (hp : α) (gi : GateInfo α) : α :=
  match gi.params with
  | [] => hp
  | a :: _ => a

/-- The guard pattern of the two-target branches (lines 125, 128, 131, 134
and 138): if target_qubit is not None the continuation runs, otherwise
nothing at all happens for this descriptor. -/
def withTarget (gi : GateInfo α) (k : Int → StepResult α) : StepResult α :=
  match gi.targetQubit with
  | none => .skipSilent
  | some tq => k tq

/-- The elif chain of build_circuit (server.py lines 99 to 145), dispatching
on the mapped gate selector. -/
def applyMapped (hp : α) (n : Int) (gi : GateInfo α) : MappedGate → StepResult α
  | .h => mk1 (gName gi) Op.h n (gQubit gi)
  | .x => mk1 (gName gi) Op.x n (gQubit gi)
  | .y => mk1 (gName gi) Op.y n (gQubit gi)
  | .z => mk1 (gName gi) Op.z n (gQubit gi)
  | .s => mk1 (gName gi) Op.s n (gQubit gi)
  | .t => mk1 (gName gi) Op.t n (gQubit gi)
  | .sdg => mk1 (gName gi) Op.sdg n (gQubit gi)
  | .tdg => mk1 (gName gi) Op.tdg n (gQubit gi)
  | .rx => mk1 (gName gi) (Op.rx (angleOf hp gi)) n (gQubit gi)
  | .ry => mk1 (gName gi) (Op.ry (angleOf hp gi)) n (gQubit gi)
  | .rz => mk1 (gName gi) (Op.rz (angleOf hp gi)) n (gQubit gi)
  | .cx => withTarget gi fun tq => mk2 (gName gi) Op.cx n (gQubit gi) tq
  | .cy => withTarget gi fun tq => mk2 (gName gi) Op.cy n (gQubit gi) tq
  | .cz => withTarget gi fun tq => mk2 (gName gi) Op.cz n (gQubit gi) tq
  | .swap => withTarget gi fun tq => mk2 (gName gi) Op.swap n (gQubit gi) tq
  | .ccx => withTarget gi fun tq =>
      mk3 (gName gi) Op.ccx n (gQubit gi) (gi.control2Qubit.getD (gQubit gi + 1)) tq
  | .cswap =>
      mk3 (gName gi) Op.cswap n (gQubit gi)
        (gi.swap1Qubit.getD (gQubit gi + 1)) (gi.swap2Qubit.getD (gQubit gi + 2))
  | .measure => mkMeasure (gName gi) n (gQubit gi)

/-- Processing of one descriptor of the loop in build_circuit (lines 87 to
148): unknown names warn and continue, otherwise the elif chain runs inside
try/except. -/
def gateStep (hp : α) (n : Int) (gi : GateInfo α) : StepResult α :=
  match GATE_MAP (gName gi) with
  | none => .skipUnknown (gName gi)
  | some m => applyMapped hp n gi m

/-- The whole descriptor loop of build_circuit: the instruction list built
so far and the diagnostics emitted, in order. -/
def buildList (hp : α) (n : Int) : List (GateInfo α) → List (Op α) × List Diag
  | [] => ([], [])
  | gi :: rest =>
    let r := buildList hp n rest
    match gateStep hp n gi with
    | .add op => (op :: r.1, r.2)
    | .skipUnknown g => (r.1, Diag.unknownGate g :: r.2)
    | .skipSilent => r
    | .skipError g => (r.1, Diag.applyError g :: r.2)

/-- The built QuantumCircuit: a qubit count (the classical register has the
same size) and the ordered instruction list. -/
structure Circuit (α : Type) where
  qubit_count : Int
  ops : List (Op α)
deriving DecidableEq, Repr

/-- build_circuit (server.py lines 83 to 150): QuantumCircuit(n, n) raises
for a negative register size; otherwise every descriptor is processed with
the per-gate policy and the circuit plus the logged diagnostics result. -/
def build_circuit (hp : α) (n : Int) (gs : List (GateInfo α)) :
    Except String (Circuit α × List Diag) :=
  if n < 0 then .error "register size must be non-negative"
  else .ok (⟨n, (buildList hp n gs).1⟩, (buildList hp n gs).2)

/-- All qubit indices touched by a list of instructions. -/
def opsQubits : List (Op α) → List Int
  | [] => []
  | op :: rest => op.qubits ++ opsQubits rest

/-- All classical-bit indices written by a list of instructions. -/
def opsClbits : List (Op α) → List Int
  | [] => []
  | op :: rest => op.clbits ++ opsClbits rest

/-- QuantumCircuit.remove_final_measurements (called at server.py line 159):
a measure instruction is removed exactly when no later kept instruction acts
on its qubit wire or classical wire, so trailing measurements (cascading
through other removed measures) disappear and mid-circuit measurements
stay. -/
def removeFinalMeasurements : List (Op α) → List (Op α)
  | [] => []
  | .measure q c :: rest =>
    let rest' := removeFinalMeasurements rest
    if q ∈ opsQubits rest' ∨ c ∈ opsClbits rest' then .measure q c :: rest' else rest'
  | op :: rest => op :: removeFinalMeasurements rest

/-- The data run_simulation (server.py lines 153 to 199) computes before
building its response dict: svOps are the instructions of state_circuit
(the copy with final measurements removed) from which the backend computes
the statevector of 2 to the svQubits amplitudes; sampleShots is the shots
value passed to simulator.run for the measurement circuit (line 180); shots
is the shots entry of the returned dict (line 198). -/
structure SimResult (α : Type) where
  svOps : List (Op α)
  svQubits : Int
  sampleShots : Int
  shots : Int
deriving DecidableEq, Repr

/-- run_simulation (server.py lines 153 to 199). There is no branching on
shots or on the qubit count: the statevector simulation always runs and the
measurement run is always invoked with the caller-supplied shots. -/
def run_simulation (qc : Circuit α) (shots : Int) : SimResult α :=
  ⟨removeFinalMeasurements qc.ops, qc.qubit_count, shots, shots⟩

/-- The body of a /run request (server.py lines 224 to 227): each field may
be absent. -/
structure RunRequest (α : Type) where
  numQubits : Option Int
  gates : Option (List (GateInfo α))
  shots : Option Int
deriving DecidableEq, Repr

/-- The response of the /run endpoint: on success the simulation results and
the gate count len(qc.data) (line 259), otherwise the catch-all error
payload of lines 262 to 267. -/
inductive RunResponse (α : Type) where
  | ok (results : SimResult α) (gateCount : Nat)
  | err (msg : String)
deriving DecidableEq, Repr

/-- The /run endpoint run_circuit (server.py lines 220 to 267): absent
fields default to 2, the empty list and 1024, the circuit is built and
simulated, and any exception becomes an error response. -/
def run_circuit (hp : α) (req : RunRequest α) : RunResponse α :=
  match build_circuit hp (req.numQubits.getD 2) (req.gates.getD []) with
  | .error e => .err e
  | .ok (qc, _) => .ok (run_simulation qc (req.shots.getD 1024)) qc.ops.length

/-- Bounds check of an index against a register of size n (no negative
indexing here: stored instructions hold resolved indices). -/
def inRange (n q : Int) : Bool :=
  decide (0 ≤ q) && decide (q < n)

/-- Pairwise distinctness of an index list. -/
def distinct : List Int → Bool
  | [] => true
  | a :: rest => rest.all (fun b => decide (a ≠ b)) && distinct rest

/-- Validity of a stored instruction for registers of sizes nq and nc: all
qubit indices in range and pairwise distinct, all clbit indices in range.
This is exactly what the gate methods of qiskit enforce, so every
instruction the builder stores satisfies it. -/
def lineWf (nq nc : Int) (op : Op α) : Bool :=
  op.qubits.all (inRange nq) && distinct op.qubits && op.clbits.all (inRange nc)

/-- Whether an instruction touches neither qubit q nor clbit c. -/
def wiresAvoid (q c : Int) (o : Op α) : Bool :=
  decide (q ∉ o.qubits) && decide (c ∉ o.clbits)

/-- Whether every measurement in the list is final: no later instruction at
all acts on its qubit or its classical bit. -/
def finalOnly : List (Op α) → Bool
  | [] => true
  | .measure q c :: rest => rest.all (wiresAvoid q c) && finalOnly rest
  | _ :: rest => finalOnly rest

/-- Modelled from the spec: one line of the textual interchange format,
represented at token level (gate mnemonic, operand indices, optional angle
parameter). The character-level text format (QASM) is produced by the qiskit
library and is absent from the source. -/
structure Line (α : Type) where
  mnemonic : String
  args : List Int
  param : Option α
deriving DecidableEq, Repr

/-- Modelled from the spec: a textual circuit document, a header declaring
the quantum and classical register sizes followed by one line per
operation. -/
structure Doc (α : Type) where
  qreg : Int
  creg : Int
  lines : List (Line α)
deriving DecidableEq, Repr

/-- Modelled from the spec: encoding of one instruction as a text line
naming the gate and its qubit and parameter operands. -/
def encodeOp : Op α → Line α
  | .h q => ⟨"h", [q], none⟩
  | .x q => ⟨"x", [q], none⟩
  | .y q => ⟨"y", [q], none⟩
  | .z q => ⟨"z", [q], none⟩
  | .s q => ⟨"s", [q], none⟩
  | .t q => ⟨"t", [q], none⟩
  | .sdg q => ⟨"sdg", [q], none⟩
  | .tdg q => ⟨"tdg", [q], none⟩
  | .rx a q => ⟨"rx", [q], some a⟩
  | .ry a q => ⟨"ry", [q], some a⟩
  | .rz a q => ⟨"rz", [q], some a⟩
  | .cx a b => ⟨"cx", [a, b], none⟩
  | .cy a b => ⟨"cy", [a, b], none⟩
  | .cz a b => ⟨"cz", [a, b], none⟩
  | .swap a b => ⟨"swap", [a, b], none⟩
  | .ccx a b c => ⟨"ccx", [a, b, c], none⟩
  | .cswap a b c => ⟨"cswap", [a, b, c], none⟩
  | .measure q c => ⟨"measure", [q, c], none⟩

/-- Modelled from the spec: encode_text produces the header (both register
sizes equal the qubit count, as the builder creates them) and one line per
operation in order. -/
def encode_text (c : Circuit α) : Doc α :=
  ⟨c.qubit_count, c.qubit_count, c.ops.map encodeOp⟩

/-- Modelled from the spec: the per-line validation of decode, performing
the same qubit-bounds validation as the Builder; a failing check is a hard
parse failure. -/
def chkOp (nq nc : Int) (op : Op α) : Except String (Op α) :=
  if lineWf nq nc op then .ok op else .error "operand out of range"

/-- Modelled from the spec: decoding of a parameter-free one-operand line. -/
def decode1 (nq nc : Int) (f : Int → Op α) (l : Line α) : Except String (Op α) :=
  match l.args, l.param with
  | [q], none => chkOp nq nc (f q)
  | _, _ => .error "malformed instruction"

/-- Modelled from the spec: decoding of a rotation line carrying an angle. -/
def decodeRot (nq nc : Int) (f : α → Int → Op α) (l : Line α) : Except String (Op α) :=
  match l.args, l.param with
  | [q], some a => chkOp nq nc (f a q)
  | _, _ => .error "malformed instruction"

/-- Modelled from the spec: decoding of a parameter-free two-operand line. -/
def decode2 (nq nc : Int) (f : Int → Int → Op α) (l : Line α) : Except String (Op α) :=
  match l.args, l.param with
  | [a, b], none => chkOp nq nc (f a b)
  | _, _ => .error "malformed instruction"

/-- Modelled from the spec: decoding of a parameter-free three-operand line. -/
def decode3 (nq nc : Int) (f : Int → Int → Int → Op α) (l : Line α) : Except String (Op α) :=
  match l.args, l.param with
  | [a, b, c], none => chkOp nq nc (f a b c)
  | _, _ => .error "malformed instruction"

/-- Modelled from the spec: decoding of one line back into an instruction;
an unrecognized mnemonic or operand shape is a hard parse failure. -/
def decodeOp (nq nc : Int) (l : Line α) : Except String (Op α) :=
  if l.mnemonic = "h" then decode1 nq nc Op.h l
  else if l.mnemonic = "x" then decode1 nq nc Op.x l
  else if l.mnemonic = "y" then decode1 nq nc Op.y l
  else if l.mnemonic = "z" then decode1 nq nc Op.z l
  else if l.mnemonic = "s" then decode1 nq nc Op.s l
  else if l.mnemonic = "t" then decode1 nq nc Op.t l
  else if l.mnemonic = "sdg" then decode1 nq nc Op.sdg l
  else if l.mnemonic = "tdg" then decode1 nq nc Op.tdg l
  else if l.mnemonic = "rx" then decodeRot nq nc Op.rx l
  else if l.mnemonic = "ry" then decodeRot nq nc Op.ry l
  else if l.mnemonic = "rz" then decodeRot nq nc Op.rz l
  else if l.mnemonic = "cx" then decode2 nq nc Op.cx l
  else if l.mnemonic = "cy" then decode2 nq nc Op.cy l
  else if l.mnemonic = "cz" then decode2 nq nc Op.cz l
  else if l.mnemonic = "swap" then decode2 nq nc Op.swap l
  else if l.mnemonic = "ccx" then decode3 nq nc Op.ccx l
  else if l.mnemonic = "cswap" then decode3 nq nc Op.cswap l
  else if l.mnemonic = "measure" then decode2 nq nc Op.measure l
  else .error "unrecognized instruction"

/-- Modelled from the spec: decoding of the instruction lines in order; the
first parse failure aborts the decode. -/
def decodeLines (nq nc : Int) : List (Line α) → Except String (List (Op α))
  | [] => .ok []
  | l :: rest =>
    match decodeOp nq nc l, decodeLines nq nc rest with
    | .ok op, .ok ops => .ok (op :: ops)
    | .error e, _ => .error e
    | .ok _, .error e => .error e

/-- Modelled from the spec: decode_text validates the header (the register
sizes must be non-negative, mirroring the register validation of the
Builder) and parses every line, rebuilding a Circuit. -/
def decode_text (d : Doc α) : Except String (Circuit α) :=
  if d.qreg < 0 ∨ d.creg < 0 then .error "register size must be non-negative"
  else
    match decodeLines d.qreg d.creg d.lines with
    | .ok ops => .ok ⟨d.qreg, ops⟩
    | .error e => .error e

/-! ### Helper lemmas about the builder -/

theorem resolveIdx_bounds (n q r : Int) (h : resolveIdx n q = some r) :
    0 ≤ r ∧ r < n := by
  unfold resolveIdx at h
  split_ifs at h with h1 h2
  · injection h with h
    omega
  · injection h with h
    omega

theorem gateStep_eq_applyMapped (hp : α) (n : Int) (gi : GateInfo α) (m : MappedGate)
    (hm : GATE_MAP (gName gi) = some m) : gateStep hp n gi = applyMapped hp n gi m := by
  unfold gateStep
  rw [hm]

theorem mk1_ne_silent (g : String) (f : Int → Op α) (n q : Int) :
    mk1 g f n q ≠ StepResult.skipSilent := by
  unfold mk1
  split <;> simp

theorem mk2_ne_silent (g : String) (f : Int → Int → Op α) (n a b : Int) :
    mk2 g f n a b ≠ StepResult.skipSilent := by
  unfold mk2
  split
  · split <;> simp
  · simp

theorem mk3_ne_silent (g : String) (f : Int → Int → Int → Op α) (n a b c : Int) :
    mk3 g f n a b c ≠ StepResult.skipSilent := by
  unfold mk3
  split
  · split <;> simp
  · simp

theorem mkMeasure_ne_silent (g : String) (n q : Int) :
    (mkMeasure g n q : StepResult α) ≠ StepResult.skipSilent := by
  unfold mkMeasure
  split <;> simp

theorem mk1_add_wf (g : String) (f : Int → Op α) (n q : Int) (op : Op α)
    (h : mk1 g f n q = .add op)
    (hf : ∀ r, (f r).qubits = [r] ∧ (f r).clbits = []) : lineWf n n op = true := by
  unfold mk1 at h
  split at h
  case h_2 => simp at h
  case h_1 r hr =>
    simp at h
    subst h
    obtain ⟨hb1, hb2⟩ := resolveIdx_bounds n q r hr
    obtain ⟨hq, hc⟩ := hf r
    simp [lineWf, hq, hc, distinct, inRange]
    omega

theorem mk2_add_wf (g : String) (f : Int → Int → Op α) (n a b : Int) (op : Op α)
    (h : mk2 g f n a b = .add op)
    (hf : ∀ x y, (f x y).qubits = [x, y] ∧ (f x y).clbits = []) : lineWf n n op = true := by
  unfold mk2 at h
  split at h
  case h_2 => simp at h
  case h_1 ra rb ha hb =>
    split at h
    · simp at h
    · rename_i hne
      simp at h
      subst h
      obtain ⟨ha1, ha2⟩ := resolveIdx_bounds n a ra ha
      obtain ⟨hb1, hb2⟩ := resolveIdx_bounds n b rb hb
      obtain ⟨hq, hc⟩ := hf ra rb
      simp [lineWf, hq, hc, distinct, inRange]
      omega

theorem mk3_add_wf (g : String) (f : Int → Int → Int → Op α) (n a b c : Int) (op : Op α)
    (h : mk3 g f n a b c = .add op)
    (hf : ∀ x y z, (f x y z).qubits = [x, y, z] ∧ (f x y z).clbits = []) : lineWf n n op = true := by
  unfold mk3 at h
  split at h
  case h_2 => simp at h
  case h_1 ra rb rc ha hb hc =>
    split at h
    · simp at h
    · rename_i hne
      simp at h
      subst h
      obtain ⟨ha1, ha2⟩ := resolveIdx_bounds n a ra ha
      obtain ⟨hb1, hb2⟩ := resolveIdx_bounds n b rb hb
      obtain ⟨hc1, hc2⟩ := resolveIdx_bounds n c rc hc
      obtain ⟨hq, hcl⟩ := hf ra rb rc
      simp [lineWf, hq, hcl, distinct, inRange]
      omega

theorem mkMeasure_add_wf (g : String) (n q : Int) (op : Op α)
    (h : mkMeasure g n q = .add op) : lineWf n n op = true := by
  unfold mkMeasure at h
  split at h
  case h_2 => simp at h
  case h_1 r hr =>
    simp at h
    subst h
    obtain ⟨h1, h2⟩ := resolveIdx_bounds n q r hr
    simp [lineWf, Op.qubits, Op.clbits, distinct, inRange]
    omega

theorem gateStep_add_wf (hp : α) (n : Int) (gi : GateInfo α) (op : Op α)
    (h : gateStep hp n gi = .add op) : lineWf n n op = true := by
  unfold gateStep at h
  cases hg : GATE_MAP (gName gi) <;> rw [hg] at h
  · simp at h
  · rename_i m
    cases m <;> simp only [applyMapped] at h
    case h => exact mk1_add_wf _ _ _ _ _ h (fun r => ⟨rfl, rfl⟩)
    case x => exact mk1_add_wf _ _ _ _ _ h (fun r => ⟨rfl, rfl⟩)
    case y => exact mk1_add_wf _ _ _ _ _ h (fun r => ⟨rfl, rfl⟩)
    case z => exact mk1_add_wf _ _ _ _ _ h (fun r => ⟨rfl, rfl⟩)
    case s => exact mk1_add_wf _ _ _ _ _ h (fun r => ⟨rfl, rfl⟩)
    case t => exact mk1_add_wf _ _ _ _ _ h (fun r => ⟨rfl, rfl⟩)
    case sdg => exact mk1_add_wf _ _ _ _ _ h (fun r => ⟨rfl, rfl⟩)
    case tdg => exact mk1_add_wf _ _ _ _ _ h (fun r => ⟨rfl, rfl⟩)
    case rx => exact mk1_add_wf _ _ _ _ _ h (fun r => ⟨rfl, rfl⟩)
    case ry => exact mk1_add_wf _ _ _ _ _ h (fun r => ⟨rfl, rfl⟩)
    case rz => exact mk1_add_wf _ _ _ _ _ h (fun r => ⟨rfl, rfl⟩)
    case cx =>
      unfold withTarget at h
      cases ht : gi.targetQubit <;> rw [ht] at h
      · simp at h
      · exact mk2_add_wf _ _ _ _ _ _ h (fun x y => ⟨rfl, rfl⟩)
    case cy =>
      unfold withTarget at h
      cases ht : gi.targetQubit <;> rw [ht] at h
      · simp at h
      · exact mk2_add_wf _ _ _ _ _ _ h (fun x y => ⟨rfl, rfl⟩)
    case cz =>
      unfold withTarget at h
      cases ht : gi.targetQubit <;> rw [ht] at h
      · simp at h
      · exact mk2_add_wf _ _ _ _ _ _ h (fun x y => ⟨rfl, rfl⟩)
    case swap =>
      unfold withTarget at h
      cases ht : gi.targetQubit <;> rw [ht] at h
      · simp at h
      · exact mk2_add_wf _ _ _ _ _ _ h (fun x y => ⟨rfl, rfl⟩)
    case ccx =>
      unfold withTarget at h
      cases ht : gi.targetQubit <;> rw [ht] at h
      · simp at h
      · exact mk3_add_wf _ _ _ _ _ _ _ h (fun x y z => ⟨rfl, rfl⟩)
    case cswap => exact mk3_add_wf _ _ _ _ _ _ _ h (fun x y z => ⟨rfl, rfl⟩)
    case measure => exact mkMeasure_add_wf _ _ _ _ h

theorem buildList_wf (hp : α) (n : Int) (gs : List (GateInfo α)) :
    ∀ op ∈ (buildList hp n gs).1, lineWf n n op = true := by
  induction gs with
  | nil => simp [buildList]
  | cons gi rest ih =>
    intro op hop
    cases hs : gateStep hp n gi <;> simp only [buildList, hs] at hop
    case add op0 =>
      rcases List.mem_cons.mp hop with h1 | h1
      · subst h1
        exact gateStep_add_wf hp n gi op hs
      · exact ih op h1
    case skipUnknown g => exact ih op hop
    case skipSilent => exact ih op hop
    case skipError g => exact ih op hop

theorem buildList_append (hp : α) (n : Int) (l1 l2 : List (GateInfo α)) :
    buildList hp n (l1 ++ l2) =
      ((buildList hp n l1).1 ++ (buildList hp n l2).1,
       (buildList hp n l1).2 ++ (buildList hp n l2).2) := by
  induction l1 with
  | nil => simp [buildList]
  | cons gi rest ih =>
    simp only [List.cons_append, buildList, ih]
    cases gateStep hp n gi <;> simp [ih]


/-! ### Helper lemmas about final-measurement removal -/

theorem mem_opsQubits (q : Int) (l : List (Op α)) :
    q ∈ opsQubits l ↔ ∃ o ∈ l, q ∈ o.qubits := by
  induction l with
  | nil => simp [opsQubits]
  | cons op rest ih => simp [opsQubits, ih]

theorem mem_opsClbits (c : Int) (l : List (Op α)) :
    c ∈ opsClbits l ↔ ∃ o ∈ l, c ∈ o.clbits := by
  induction l with
  | nil => simp [opsClbits]
  | cons op rest ih => simp [opsClbits, ih]

theorem removeFinalMeasurements_of_finalOnly (l : List (Op α))
    (h : finalOnly l = true) :
    removeFinalMeasurements l = l.filter fun o => !o.isMeasure := by
  induction l with
  | nil => rfl
  | cons op rest ih =>
    cases op
    case measure q c =>
      simp only [finalOnly, Bool.and_eq_true] at h
      obtain ⟨hall, hrest⟩ := h
      have havoid : ∀ o ∈ rest, q ∉ o.qubits ∧ c ∉ o.clbits := by
        intro o ho
        have := List.all_eq_true.mp hall o ho
        simpa [wiresAvoid] using this
      have hq : q ∉ opsQubits (removeFinalMeasurements rest) := by
        rw [ih hrest, mem_opsQubits]
        rintro ⟨o, ho, hqo⟩
        exact (havoid o (List.mem_of_mem_filter ho)).1 hqo
      have hc : c ∉ opsClbits (removeFinalMeasurements rest) := by
        rw [ih hrest, mem_opsClbits]
        rintro ⟨o, ho, hco⟩
        exact (havoid o (List.mem_of_mem_filter ho)).2 hco
      simp only [removeFinalMeasurements]
      rw [if_neg (not_or.mpr ⟨hq, hc⟩)]
      rw [ih hrest]
      simp [List.filter_cons, Op.isMeasure]
    all_goals
      simp only [finalOnly] at h
      simp only [removeFinalMeasurements]
      rw [ih h]
      simp [List.filter_cons, Op.isMeasure]

/-! ### Helper lemmas about the codec -/

theorem decodeOp_encodeOp (nq nc : Int) (op : Op α) (h : lineWf nq nc op = true) :
    decodeOp nq nc (encodeOp op) = .ok op := by
  cases op <;>
    simp [encodeOp, decodeOp, decode1, decodeRot, decode2, decode3, chkOp, h]

theorem decodeLines_encode (nq nc : Int) (ops : List (Op α))
    (h : ∀ op ∈ ops, lineWf nq nc op = true) :
    decodeLines nq nc (ops.map encodeOp) = .ok ops := by
  induction ops with
  | nil => rfl
  | cons op rest ih =>
    have h1 := h op (List.mem_cons_self op rest)
    have h2 : ∀ o ∈ rest, lineWf nq nc o = true := fun o ho =>
      h o (List.mem_cons_of_mem _ ho)
    simp [decodeLines, decodeOp_encodeOp nq nc op h1, ih h2]


/-! ### Claim theorems -/

/-- C1: the claim says a run whose qubit count exceeds the ceiling of 25 is
rejected before the amplitude array is allocated. The code enforces no
ceiling (only the /status endpoint advertises max_qubits 25): a /run request
with 26 qubits is built and handed to run_simulation, which computes the
statevector of a 26-qubit circuit, as this evaluation of the model shows. -/
theorem c1_ceiling_not_enforced :
    run_circuit (0 : Int)
        ⟨some 26, some [⟨"h", some 0, none, none, none, none, []⟩], some 100⟩ =
      .ok ⟨[Op.h 0], 26, 100, 100⟩ 1 := by
  decide

/-- C2 counterexample: exact mode does not remove every Measure operation.
For the builder-produced circuit h 0, measure 0, h 0 the mid-circuit
measurement survives remove_final_measurements, so the simulated
instruction list differs from the circuit with all measures filtered
out. -/
theorem c2_midcircuit_measure_counterexample :
    build_circuit (0 : Int) 1
        [⟨"h", some 0, none, none, none, none, []⟩,
         ⟨"measure", some 0, none, none, none, none, []⟩,
         ⟨"h", some 0, none, none, none, none, []⟩] =
      .ok (⟨1, [Op.h 0, Op.measure 0 0, Op.h 0]⟩, []) ∧
    (run_simulation (⟨1, [Op.h 0, Op.measure 0 0, Op.h 0]⟩ : Circuit Int) 1024).svOps ≠
      (⟨1, [Op.h 0, Op.measure 0 0, Op.h 0]⟩ : Circuit Int).ops.filter
        (fun o => !o.isMeasure) := by
  decide

/-- C2 amended: exact mode simulates the circuit with only its final
measurements removed; in particular, whenever every measurement of the
circuit is final (no later operation acts on its qubit or classical bit),
the simulated instruction list is exactly the circuit with all Measure
operations removed. -/
theorem c2_final_measurements_amended (qc : Circuit α) (shots : Int)
    (h : finalOnly qc.ops = true) :
    (run_simulation qc shots).svOps = qc.ops.filter fun o => !o.isMeasure :=
  removeFinalMeasurements_of_finalOnly qc.ops h

theorem c2_final_measurements_amended_witness :
    (run_simulation (⟨1, [Op.h 0, Op.measure 0 0]⟩ : Circuit Int) 7).svOps =
      (⟨1, [Op.h 0, Op.measure 0 0]⟩ : Circuit Int).ops.filter fun o => !o.isMeasure :=
  c2_final_measurements_amended ⟨1, [Op.h 0, Op.measure 0 0]⟩ 7 (by decide)

/-- C3 counterexample: a CX descriptor without a targetQubit is not given the
default target primary plus one; it is dropped, with no operation added and
no diagnostic. -/
theorem c3_missing_target_counterexample :
    build_circuit (0 : Int) 3 [⟨"cx", some 0, none, none, none, none, []⟩] =
      .ok (⟨3, []⟩, []) := by
  decide

/-- C3 amended: the default-offset policy applies only to the optional
operands of the three-qubit gates: a CCX descriptor with a targetQubit but
no control2Qubit defaults the second control to primary plus one, and a
CSWAP descriptor defaults its swap operands to primary plus one and primary
plus two; a gate that requires targetQubit (here CX) is silently skipped
when that field is absent. -/
theorem c3_default_offsets_amended (hp : α) (n q tq : Int)
    (hq : 0 ≤ q) (hq2 : q + 2 < n) (htq0 : 0 ≤ tq) (htqn : tq < n)
    (htq1 : tq ≠ q) (htq2 : tq ≠ q + 1) :
    gateStep hp n ⟨"ccx", some q, some tq, none, none, none, []⟩
        = .add (Op.ccx q (q + 1) tq) ∧
    gateStep hp n ⟨"cswap", some q, none, none, none, none, []⟩
        = .add (Op.cswap q (q + 1) (q + 2)) ∧
    gateStep hp n ⟨"cx", some q, none, none, none, none, []⟩
        = StepResult.skipSilent := by
  have r0 : resolveIdx n q = some q := by
    unfold resolveIdx
    rw [if_pos ⟨hq, by omega⟩]
  have r1 : resolveIdx n (q + 1) = some (q + 1) := by
    unfold resolveIdx
    rw [if_pos ⟨by omega, by omega⟩]
  have r2 : resolveIdx n (q + 2) = some (q + 2) := by
    unfold resolveIdx
    rw [if_pos ⟨by omega, by omega⟩]
  have rt : resolveIdx n tq = some tq := by
    unfold resolveIdx
    rw [if_pos ⟨htq0, htqn⟩]
  refine ⟨?_, ?_, ?_⟩
  · rw [gateStep_eq_applyMapped hp n (⟨"ccx", some q, some tq, none, none, none, []⟩ : GateInfo α) MappedGate.ccx rfl]
    simp only [applyMapped, withTarget, gQubit, Option.getD_some, Option.getD_none]
    simp only [mk3, r0, r1, rt]
    rw [if_neg (by omega)]
  · rw [gateStep_eq_applyMapped hp n (⟨"cswap", some q, none, none, none, none, []⟩ : GateInfo α) MappedGate.cswap rfl]
    simp only [applyMapped, gQubit, Option.getD_some, Option.getD_none]
    simp only [mk3, r0, r1, r2]
    rw [if_neg (by omega)]
  · rw [gateStep_eq_applyMapped hp n (⟨"cx", some q, none, none, none, none, []⟩ : GateInfo α) MappedGate.cx rfl]
    simp [applyMapped, withTarget]

theorem c3_default_offsets_amended_witness :
    gateStep (0 : Int) 4 ⟨"ccx", some 0, some 3, none, none, none, []⟩
        = .add (Op.ccx 0 (0 + 1) 3) ∧
    gateStep (0 : Int) 4 ⟨"cswap", some 0, none, none, none, none, []⟩
        = .add (Op.cswap 0 (0 + 1) (0 + 2)) ∧
    gateStep (0 : Int) 4 ⟨"cx", some 0, none, none, none, none, []⟩
        = StepResult.skipSilent :=
  c3_default_offsets_amended 0 4 0 3 (by decide) (by decide) (by decide) (by decide)
    (by decide) (by decide)

/-- C4 counterexample: a SWAP descriptor with an absent targetQubit is
dropped with no operation and no diagnostic of any kind, so one per-gate
error path does drop an operation silently. -/
theorem c4_silent_drop_counterexample :
    build_circuit (0 : Int) 3 [⟨"swap", some 0, none, none, none, none, []⟩] =
      .ok (⟨3, []⟩, []) := by
  decide

/-- C4 amended: the silent path is exactly the missing-target path. A
descriptor is dropped with no diagnostic precisely when its name maps to
CX, CY, CZ, SWAP or CCX and its targetQubit is absent; every other failing
descriptor (unknown name, index out of range, duplicate indices) produces a
diagnostic record. -/
theorem c4_silent_paths_amended (hp : α) (n : Int) (gi : GateInfo α) :
    gateStep hp n gi = StepResult.skipSilent ↔
      ((GATE_MAP (gName gi) = some MappedGate.cx ∨
          GATE_MAP (gName gi) = some MappedGate.cy ∨
          GATE_MAP (gName gi) = some MappedGate.cz ∨
          GATE_MAP (gName gi) = some MappedGate.swap ∨
          GATE_MAP (gName gi) = some MappedGate.ccx) ∧
        gi.targetQubit = none) := by
  cases hg : GATE_MAP (gName gi)
  case none =>
    rw [show gateStep hp n gi = .skipUnknown (gName gi) from by unfold gateStep; rw [hg]]
    simp
  case some m =>
    rw [gateStep_eq_applyMapped hp n gi m hg]
    cases m <;> simp only [applyMapped] <;>
      first
        | exact iff_of_false (mk1_ne_silent _ _ _ _) (by simp)
        | exact iff_of_false (mk3_ne_silent _ _ _ _ _ _) (by simp)
        | exact iff_of_false (mkMeasure_ne_silent _ _ _) (by simp)
        | (unfold withTarget
           cases ht : gi.targetQubit
           case none => simp
           case some tq =>
             first
               | exact iff_of_false (mk2_ne_silent _ _ _ _ _) (by simp)
               | exact iff_of_false (mk3_ne_silent _ _ _ _ _ _) (by simp))

/-- C5 counterexample: a /run request with shots 0 is not rejected
before sampling. The exact statevector simulation runs and the measurement
sampling run is invoked with shots 0, producing a success-shaped result
rather than an up-front configuration rejection. -/
theorem c5_shots_unvalidated_counterexample :
    run_circuit (0 : Int)
        ⟨some 1, some [⟨"h", some 0, none, none, none, none, []⟩], some 0⟩ =
      .ok ⟨[Op.h 0], 1, 0, 0⟩ 1 := by
  decide

/-- C5 amended: the service performs no shots validation. For any
non-positive shots value the exact simulation is still performed and the
sampling backend is invoked with exactly that shots value; any rejection
happens inside the sampling backend, not before it. -/
theorem c5_no_shot_validation_amended (qc : Circuit α) (shots : Int)
    (h : shots ≤ 0) :
    (run_simulation qc shots).sampleShots = shots ∧
    (run_simulation qc shots).svOps = removeFinalMeasurements qc.ops :=
  ⟨rfl, rfl⟩

theorem c5_no_shot_validation_amended_witness :
    (run_simulation (⟨1, [Op.h 0]⟩ : Circuit Int) 0).sampleShots = 0 ∧
    (run_simulation (⟨1, [Op.h 0]⟩ : Circuit Int) 0).svOps =
      removeFinalMeasurements (⟨1, [Op.h 0]⟩ : Circuit Int).ops :=
  c5_no_shot_validation_amended ⟨1, [Op.h 0]⟩ 0 (by decide)

/-- C6 counterexample: a build with qubit_count 0 does not fail; it
produces the empty zero-qubit circuit with no diagnostics, because the
underlying register constructor accepts size zero. -/
theorem c6_zero_qubits_counterexample :
    build_circuit (0 : Int) 0 [] = .ok (⟨0, []⟩, []) := by
  decide

/-- C6 amended: the build fails as a whole exactly when qubit_count is
negative (the register constructor raises); qubit_count 0 is accepted, and
no per-gate problem ever fails the build. -/
theorem c6_negative_only_failure_amended (hp : α) (n : Int) (gs : List (GateInfo α)) :
    (∃ e, build_circuit hp n gs = .error e) ↔ n < 0 := by
  unfold build_circuit
  by_cases hn : n < 0
  · simp [hn]
  · simp [hn]

/-- C7: for every circuit produced by the builder, decoding the encoded
text reproduces the circuit exactly, with the same qubit count and the
identical operation sequence. -/
theorem c7_decode_encode_roundtrip (hp : α) (n : Int) (gs : List (GateInfo α))
    (c : Circuit α) (ds : List Diag)
    (h : build_circuit hp n gs = .ok (c, ds)) :
    decode_text (encode_text c) = .ok c := by
  unfold build_circuit at h
  by_cases hn : n < 0
  · rw [if_pos hn] at h
    exact Except.noConfusion h
  · rw [if_neg hn] at h
    simp only [Except.ok.injEq, Prod.mk.injEq] at h
    obtain ⟨hc, hds⟩ := h
    subst hc
    simp only [decode_text, encode_text]
    rw [decodeLines_encode n n _ (buildList_wf hp n gs)]
    simp [hn]

theorem c7_decode_encode_roundtrip_witness :
    decode_text (encode_text (⟨2, [Op.h 0, Op.cx 0 1]⟩ : Circuit Int)) =
      .ok ⟨2, [Op.h 0, Op.cx 0 1]⟩ :=
  c7_decode_encode_roundtrip (0 : Int) 2
    [⟨"h", some 0, none, none, none, none, []⟩,
     ⟨"cnot", some 0, some 1, none, none, none, []⟩]
    ⟨2, [Op.h 0, Op.cx 0 1]⟩ [] (by decide)

/-- C8: a descriptor with an unrecognized gate name is skipped non-fatally:
the build still succeeds, one unknown-gate diagnostic is recorded in place,
and the resulting circuit holds exactly the operations of the remaining
descriptors in their original order. -/
theorem c8_unknown_gate_skipped (hp : α) (n : Int) (pre post : List (GateInfo α))
    (gi : GateInfo α) (hn : ¬ n < 0) (hu : GATE_MAP (gName gi) = none) :
    build_circuit hp n (pre ++ gi :: post) =
      .ok (⟨n, (buildList hp n pre).1 ++ (buildList hp n post).1⟩,
        (buildList hp n pre).2 ++ Diag.unknownGate (gName gi) :: (buildList hp n post).2) := by
  have hstep : gateStep hp n gi = .skipUnknown (gName gi) := by
    unfold gateStep
    rw [hu]
  unfold build_circuit
  rw [if_neg hn, buildList_append]
  simp [buildList, hstep]

theorem c8_unknown_gate_skipped_witness :
    build_circuit (0 : Int) 1
        [⟨"h", some 0, none, none, none, none, []⟩,
         ⟨"boop", some 0, none, none, none, none, []⟩,
         ⟨"x", some 0, none, none, none, none, []⟩] =
      .ok (⟨1, [Op.h 0, Op.x 0]⟩, [Diag.unknownGate "boop"]) :=
  (c8_unknown_gate_skipped (0 : Int) 1
      [⟨"h", some 0, none, none, none, none, []⟩]
      [⟨"x", some 0, none, none, none, none, []⟩]
      ⟨"boop", some 0, none, none, none, none, []⟩
      (by decide) (by decide)).trans (by decide)

/-- C9: a rotation descriptor (rx, ry or rz) whose parameter list is absent
or empty is applied with the default angle np.pi / 2, embedded here as the
distinguished value hp. -/
theorem c9_rotation_default_angle (hp : α) (n q r : Int) (tq c2 s1 s2 : Option Int)
    (hr : resolveIdx n q = some r) :
    gateStep hp n ⟨"rx", some q, tq, c2, s1, s2, []⟩ = .add (Op.rx hp r) ∧
    gateStep hp n ⟨"ry", some q, tq, c2, s1, s2, []⟩ = .add (Op.ry hp r) ∧
    gateStep hp n ⟨"rz", some q, tq, c2, s1, s2, []⟩ = .add (Op.rz hp r) := by
  refine ⟨?_, ?_, ?_⟩
  · rw [gateStep_eq_applyMapped hp n (⟨"rx", some q, tq, c2, s1, s2, []⟩ : GateInfo α) MappedGate.rx rfl]
    simp [applyMapped, angleOf, gQubit, mk1, hr]
  · rw [gateStep_eq_applyMapped hp n (⟨"ry", some q, tq, c2, s1, s2, []⟩ : GateInfo α) MappedGate.ry rfl]
    simp [applyMapped, angleOf, gQubit, mk1, hr]
  · rw [gateStep_eq_applyMapped hp n (⟨"rz", some q, tq, c2, s1, s2, []⟩ : GateInfo α) MappedGate.rz rfl]
    simp [applyMapped, angleOf, gQubit, mk1, hr]

theorem c9_rotation_default_angle_witness :
    gateStep (7 : Int) 2 ⟨"rx", some 0, none, none, none, none, []⟩ = .add (Op.rx 7 0) ∧
    gateStep (7 : Int) 2 ⟨"ry", some 0, none, none, none, none, []⟩ = .add (Op.ry 7 0) ∧
    gateStep (7 : Int) 2 ⟨"rz", some 0, none, none, none, none, []⟩ = .add (Op.rz 7 0) :=
  c9_rotation_default_angle 7 2 0 0 none none none none (by decide)

/-- C10: the /run endpoint substitutes the fixed defaults before building
and simulating: a request behaves exactly as the request whose absent
numQubits is 2, whose absent gate list is empty and whose absent shots is
1024. -/
theorem c10_request_defaults (hp : α) (req : RunRequest α) :
    run_circuit hp req =
      run_circuit hp ⟨some (req.numQubits.getD 2), some (req.gates.getD []),
        some (req.shots.getD 1024)⟩ :=
  rfl


end QiskitBackend
